import Mathlib

/-!
Verification development for the ADXL345 3-axis accelerometer driver
(header `drivers/include/adxl345.h`).

The repository ships the driver's public header: enumerations (addresses,
ranges, rates, FIFO modes, interrupt pins, result codes), the data / interrupt
/ parameter / device structs, and the operation signatures.  The register
protocol these operations perform is specified in the design document; the
operations below are shallowly embedded over an explicit bus-state model
(`BusState`): the device-side register file, a per-transaction success oracle,
and a trace of issued bus operations.  Machine integers are modelled as `Nat`
with explicit `% 256` / `% 65536` reductions at the points where the C types
(`uint8_t`, `int16_t`) truncate.
-/

/-! ## Register map constants (ADXL345 datasheet register addresses) -/

/-- Device-identity register (DEVID, address 0x00). -/
def REG_DEVID : Nat := 0x00

/-- Expected device-identity byte of an ADXL345. -/
def ADXL345_CHIP_ID : Nat := 0xE5

/-- Tap threshold register. -/
def REG_THRESH_TAP : Nat := 0x1D

/-- First of the three user-offset registers (OFSX, OFSY, OFSZ). -/
def REG_OFSX : Nat := 0x1E

/-- Tap duration register. -/
def REG_DUR : Nat := 0x21

/-- Tap latency register. -/
def REG_LATENT : Nat := 0x22

/-- Tap window register. -/
def REG_WINDOW : Nat := 0x23

/-- Activity threshold register. -/
def REG_THRESH_ACT : Nat := 0x24

/-- Inactivity threshold register. -/
def REG_THRESH_INACT : Nat := 0x25

/-- Inactivity time register. -/
def REG_TIME_INACT : Nat := 0x26

/-- Axis-enable control for activity/inactivity detection. -/
def REG_ACT_INACT_CTL : Nat := 0x27

/-- Free-fall threshold register. -/
def REG_THRESH_FF : Nat := 0x28

/-- Free-fall time register. -/
def REG_TIME_FF : Nat := 0x29

/-- Axis control for single/double tap. -/
def REG_TAP_AXES : Nat := 0x2A

/-- Bandwidth/output-data-rate register. -/
def REG_BW_RATE : Nat := 0x2C

/-- Power-control register (link / auto-sleep / measure / sleep / wakeup bits). -/
def REG_POWER_CTL : Nat := 0x2D

/-- Interrupt enable register. -/
def REG_INT_ENABLE : Nat := 0x2E

/-- Interrupt mapping register. -/
def REG_INT_MAP : Nat := 0x2F

/-- Data-format register (FULL_RES bit 3, range bits 1:0). -/
def REG_DATA_FORMAT : Nat := 0x31

/-- First axis-data register (DATAX0); axis data is 6 consecutive bytes,
three little-endian signed 16-bit values. -/
def REG_DATAX0 : Nat := 0x32

/-- FIFO control register (mode bits 7:6, trigger bit 5, samples bits 4:0). -/
def REG_FIFO_CTL : Nat := 0x38

/-- Measure bit position in the power-control register. -/
def BIT_MEASURE : Nat := 3

/-- Sleep bit position in the power-control register. -/
def BIT_SLEEP : Nat := 2

/-- Auto-sleep bit position in the power-control register. -/
def BIT_AUTOSLEEP : Nat := 4

/-! ## Named return values (header, lines 90-96) -/

/-- Everything was fine. -/
def ADXL345_OK : Int := 0

/-- New data ready to be read. -/
def ADXL345_DATA_READY : Int := 1

/-- I2C communication failed. -/
def ADXL345_NOI2C : Int := -1

/-- No ADXL345 device found on the bus. -/
def ADXL345_NODEV : Int := -2

/-- No data available. -/
def ADXL345_NODATA : Int := -3

/-! ## FIFO modes (header, lines 73-78) -/

/-- FIFO bypass mode. -/
def FIFO_MODE_BYPASS : Nat := 0

/-- FIFO mode. -/
def FIFO_MODE_FIFO : Nat := 1

/-- FIFO stream mode. -/
def FIFO_MODE_STREAM : Nat := 2

/-- FIFO trigger mode. -/
def FIFO_MODE_TRIGGER : Nat := 3

/-! ## Data structures (header, lines 98-146).  `uint8_t` fields are `Nat`
carrying byte values; reduction `% 256` happens where the C code truncates. -/

/-- ADXL345 result vector struct (`adxl345_data_t`): three `int16_t`
measurement results in milli-g, modelled as `Int` kept in int16 range. -/
structure adxl345_data_t where
  x : Int
  y : Int
  z : Int
  deriving Repr, DecidableEq

/-- Interrupt configuration struct (`adxl345_interrupt_t`), all `uint8_t`. -/
structure adxl345_interrupt_t where
  source : Nat
  map : Nat
  enable : Nat
  thres_tap : Nat
  thres_dur : Nat
  thres_latent : Nat
  thres_window : Nat
  thres_act : Nat
  thres_inact : Nat
  time_inact : Nat
  thres_ff : Nat
  time_ff : Nat
  act_inact : Nat
  tap_axes : Nat
  deriving Repr, DecidableEq

/-- Configuration struct (`adxl345_params_t`).  `offset[3]` is modelled as
three named byte fields; `scale_factor` mirrors the `uint8_t` field at header
line 138. -/
structure adxl345_params_t where
  i2c : Nat
  addr : Nat
  interrupt : adxl345_interrupt_t
  offset0 : Nat
  offset1 : Nat
  offset2 : Nat
  range : Nat
  rate : Nat
  full_res : Nat
  scale_factor : Nat
  deriving Repr, DecidableEq

/-- Device descriptor (`adxl345_t`). -/
structure adxl345_t where
  params : adxl345_params_t
  deriving Repr, DecidableEq

/-! ## Bus transport model

The spec treats the transport as an abstract capability
(read(reg, buf) / write(reg, buf) returning success or failure).  `BusState`
carries the device register file, an oracle deciding whether the n-th
transaction succeeds, a transaction counter, and a trace of issued operations
for frame reasoning. -/

/-- One register-addressed bus operation as observed on the transport. -/
inductive BusOp where
  | readRegs (reg : Nat) (len : Nat)
  | writeRegs (reg : Nat) (vals : List Nat)
  deriving Repr, DecidableEq

/-- State of the device-plus-transport pair that the driver talks to. -/
structure BusState where
  regs : Nat → Nat
  okSeq : Nat → Bool
  txn : Nat
  trace : List BusOp

/-- Store a list of bytes into the register file at consecutive addresses. -/
def writeBytes (regs : Nat → Nat) (reg : Nat) : List Nat → (Nat → Nat)
  | [] => regs
  | v :: vs => writeBytes (Function.update regs reg (v % 256)) (reg + 1) vs

/-- Transport primitive: read `len` bytes starting at register `reg`.
Issues one transaction; fails when the success oracle says so. -/
def i2c_read_regs (s : BusState) (reg len : Nat) :
    Except Unit (List Nat) × BusState :=
  let s1 : BusState := { s with txn := s.txn + 1,
                                trace := s.trace ++ [BusOp.readRegs reg len] }
  if s.okSeq s.txn then
    (Except.ok ((List.range len).map (fun i => s.regs (reg + i) % 256)), s1)
  else
    (Except.error (), s1)

/-- Transport primitive: write the given bytes starting at register `reg`.
Issues one transaction; on failure the register file is not updated. -/
def i2c_write_regs (s : BusState) (reg : Nat) (vals : List Nat) :
    Except Unit Unit × BusState :=
  let bytes := vals.map (fun v => v % 256)
  let s1 : BusState := { s with txn := s.txn + 1,
                                trace := s.trace ++ [BusOp.writeRegs reg bytes] }
  if s.okSeq s.txn then
    (Except.ok (), { s1 with regs := writeBytes s.regs reg bytes })
  else
    (Except.error (), s1)

/-! ## Raw-value decoding -/

/-- Reinterpret a 16-bit unsigned value as a signed 16-bit integer
(two's complement). -/
def toInt16 (n : Nat) : Int :=
  if n % 65536 < 32768 then ((n % 65536 : Nat) : Int)
  else ((n % 65536 : Nat) : Int) - 65536

/-- Truncate an integer to the int16 range, as storing into `int16_t` does. -/
def wrap16 (z : Int) : Int := (z + 32768) % 65536 - 32768

/-- Decode one axis: assemble the little-endian signed 16-bit raw value from
bytes `lo`, `hi`, multiply by the stored 8-bit scale factor, store into an
`int16_t` field. -/
def decodeAxis (lo hi sf : Nat) : Int :=
  wrap16 (toInt16 (lo % 256 + 256 * (hi % 256)) * ((sf % 256 : Nat) : Int))

/-- Little-endian signed 16-bit x-axis raw value held in the device's axis
registers. -/
def rawX (s : BusState) : Int :=
  toInt16 (s.regs REG_DATAX0 % 256 + 256 * (s.regs (REG_DATAX0 + 1) % 256))

/-- Little-endian signed 16-bit y-axis raw value held in the device's axis
registers. -/
def rawY (s : BusState) : Int :=
  toInt16 (s.regs (REG_DATAX0 + 2) % 256 + 256 * (s.regs (REG_DATAX0 + 3) % 256))

/-- Little-endian signed 16-bit z-axis raw value held in the device's axis
registers. -/
def rawZ (s : BusState) : Int :=
  toInt16 (s.regs (REG_DATAX0 + 4) % 256 + 256 * (s.regs (REG_DATAX0 + 5) % 256))

/-! ## Data read (header lines 160-172, spec section 4.2) -/

/-- Modelled from the spec: `adxl345_read` (the implementation file is not in
the repository; header lines 160-172 give the signature and the scaling
contract).  Reads the three consecutive 16-bit little-endian axis registers in
one 6-byte bus transaction starting at DATAX0, multiplies each raw signed
value by the stored scale factor, and populates the caller's output record;
the handle is not modified.  The operation is `void`: on a failed bus
transaction no status is surfaced and the output record is left zeroed. -/
def adxl345_read (dev : adxl345_t) (s : BusState) :
    adxl345_t × adxl345_data_t × BusState :=
  match i2c_read_regs s REG_DATAX0 6 with
  | (Except.ok bs, s1) =>
      let b := fun i => bs.getD i 0
      (dev,
       { x := decodeAxis (b 0) (b 1) dev.params.scale_factor,
         y := decodeAxis (b 2) (b 3) dev.params.scale_factor,
         z := decodeAxis (b 4) (b 5) dev.params.scale_factor },
       s1)
  | (Except.error _, s1) => (dev, { x := 0, y := 0, z := 0 }, s1)

/-! ## Initialization (header lines 149-158, spec section 4.1) -/

/-- Modelled from the spec: the scale factor derived at initialization so that
it "must always match the currently active range and resolution setting"
(section 3) per the section 4.2 table (3.9 mg/LSB in full-resolution mode for
every range; 3.9 / 7.8 / 15.6 / 31.2 mg/LSB for ranges 0..3 in
fixed-resolution mode).  The header stores it in a `uint8_t` field (line 138),
so the fractional table value is truncated to an integer as the C conversion
does: 3 in full-resolution mode, and 3 / 7 / 15 / 31 for the four
fixed-resolution ranges. -/
def derive_scale_factor (full_res range : Nat) : Nat :=
  if full_res % 256 ≠ 0 then 3
  else if range % 4 = 0 then 3
  else if range % 4 = 1 then 7
  else if range % 4 = 2 then 15
  else 31

/-- Byte written to the data-format register: FULL_RES bit 3 and the 2-bit
range code in bits 1:0. -/
def dataFormatByte (full_res range : Nat) : Nat :=
  ((if full_res % 256 ≠ 0 then 1 else 0) <<< 3) ||| (range % 4)

/-- Modelled from the spec: the configuration register writes issued by a
successful initialization (section 4.1): range and resolution, rate, the
three user offsets, the full interrupt sub-record (section 4.6 register set),
FIFO disabled (bypass), and finally the power-control register written to the
known standby value (measure bit clear). -/
def configWrites (p : adxl345_params_t) : List (Nat × List Nat) :=
  [ (REG_DATA_FORMAT, [dataFormatByte p.full_res p.range]),
    (REG_BW_RATE, [p.rate]),
    (REG_OFSX, [p.offset0, p.offset1, p.offset2]),
    (REG_THRESH_TAP, [p.interrupt.thres_tap]),
    (REG_DUR, [p.interrupt.thres_dur]),
    (REG_LATENT, [p.interrupt.thres_latent]),
    (REG_WINDOW, [p.interrupt.thres_window]),
    (REG_THRESH_ACT, [p.interrupt.thres_act]),
    (REG_THRESH_INACT, [p.interrupt.thres_inact]),
    (REG_TIME_INACT, [p.interrupt.time_inact]),
    (REG_ACT_INACT_CTL, [p.interrupt.act_inact]),
    (REG_THRESH_FF, [p.interrupt.thres_ff]),
    (REG_TIME_FF, [p.interrupt.time_ff]),
    (REG_TAP_AXES, [p.interrupt.tap_axes]),
    (REG_INT_MAP, [p.interrupt.map]),
    (REG_INT_ENABLE, [p.interrupt.enable]),
    (REG_FIFO_CTL, [0]),
    (REG_POWER_CTL, [0]) ]

/-- Issue a list of register writes in order, stopping at the first failed
transaction and surfacing the failure. -/
def writeAll (s : BusState) : List (Nat × List Nat) → Except Unit Unit × BusState
  | [] => (Except.ok (), s)
  | w :: ws =>
      match i2c_write_regs s w.1 w.2 with
      | (Except.ok _, s1) => writeAll s1 ws
      | (Except.error _, s1) => (Except.error (), s1)

/-- Modelled from the spec: `adxl345_init` (header lines 149-158 give the
signature and result codes; the implementation file is not in the
repository).  Probes the device-identity register at the given address:
a failed transaction returns `ADXL345_NOI2C`; a wrong identity byte returns
`ADXL345_NODEV` with the handle untouched (section 8: probe failure "must not
mutate the handle's stored configuration").  On a successful probe it writes
the full configuration, returning `ADXL345_NOI2C` if any transaction fails,
and on success stores the configuration (with the derived scale factor) in
the handle and returns `ADXL345_OK`, leaving the device in standby. -/
def adxl345_init (dev : adxl345_t) (p : adxl345_params_t) (s : BusState) :
    Int × adxl345_t × BusState :=
  match i2c_read_regs s REG_DEVID 1 with
  | (Except.error _, s1) => (ADXL345_NOI2C, dev, s1)
  | (Except.ok bs, s1) =>
      if bs.getD 0 0 ≠ ADXL345_CHIP_ID then (ADXL345_NODEV, dev, s1)
      else
        let p1 : adxl345_params_t :=
          { p with scale_factor := derive_scale_factor p.full_res p.range }
        match writeAll s1 (configWrites p1) with
        | (Except.ok _, s2) => (ADXL345_OK, { params := p1 }, s2)
        | (Except.error _, s2) => (ADXL345_NOI2C, dev, s2)

/-! ## Mode control (header lines 181-207, spec section 4.3) -/

/-- Modelled from the spec: the common shape of the four mode setters, "a
single-register read-modify-write toggling a specific power/measurement bit
while preserving other bits in that register" (section 4.3).  Reads the
power-control register, applies `f` to the byte, writes the result back.  On
a failed read no write is issued (the setters are `void`; no status is
surfaced). -/
def rmw_power_ctl (dev : adxl345_t) (f : Nat → Nat) (s : BusState) :
    adxl345_t × BusState :=
  match i2c_read_regs s REG_POWER_CTL 1 with
  | (Except.ok bs, s1) =>
      (dev, (i2c_write_regs s1 REG_POWER_CTL [f (bs.getD 0 0)]).2)
  | (Except.error _, s1) => (dev, s1)

/-- Modelled from the spec: `adxl345_set_measure` (header lines 181-186) sets
the measure bit of the power-control register. -/
def adxl345_set_measure (dev : adxl345_t) (s : BusState) : adxl345_t × BusState :=
  rmw_power_ctl dev (fun v => v ||| (1 <<< BIT_MEASURE)) s

/-- Modelled from the spec: `adxl345_set_standby` (header lines 188-193)
clears the measure bit of the power-control register. -/
def adxl345_set_standby (dev : adxl345_t) (s : BusState) : adxl345_t × BusState :=
  rmw_power_ctl dev (fun v => v &&& 0xF7) s

/-- Modelled from the spec: `adxl345_set_sleep` (header lines 195-200) sets
the sleep bit of the power-control register. -/
def adxl345_set_sleep (dev : adxl345_t) (s : BusState) : adxl345_t × BusState :=
  rmw_power_ctl dev (fun v => v ||| (1 <<< BIT_SLEEP)) s

/-- Modelled from the spec: `adxl345_set_autosleep` (header lines 202-207)
sets the auto-sleep bit of the power-control register. -/
def adxl345_set_autosleep (dev : adxl345_t) (s : BusState) : adxl345_t × BusState :=
  rmw_power_ctl dev (fun v => v ||| (1 <<< BIT_AUTOSLEEP)) s

/-! ## Bandwidth/rate control (header line 215, spec section 4.4) -/

/-- Modelled from the spec: `adxl345_set_bandwidth_rate` (header lines
209-215).  Writes the caller-supplied byte to the rate register and stores it
in the handle; no validation of the rate code is performed and the operation
is `void` (section 4.4: "driver stores whatever value caller supplies — no
validation layer exists"). -/
def adxl345_set_bandwidth_rate (dev : adxl345_t) (bw_rate : Nat) (s : BusState) :
    adxl345_t × BusState :=
  let dev1 : adxl345_t := { params := { dev.params with rate := bw_rate % 256 } }
  (dev1, (i2c_write_regs s REG_BW_RATE [bw_rate]).2)

/-! ## FIFO control (header lines 217-226, spec section 4.5) -/

/-- Modelled from the spec: `adxl345_set_fifo_mode` (header lines 217-226).
Packs {mode, trigger output pin, sample-count value} into the FIFO control
register's bit layout (mode in bits 7:6, trigger in bit 5, samples in bits
4:0) and issues the single write; no read-back or validation (section 4.5). -/
def adxl345_set_fifo_mode (dev : adxl345_t) (mode output value : Nat)
    (s : BusState) : adxl345_t × BusState :=
  (dev, (i2c_write_regs s REG_FIFO_CTL [(mode <<< 6) ||| (output <<< 5) ||| value]).2)

/-! ## Interrupt configuration (header lines 174-179, spec section 4.6) -/

/-- Modelled from the spec: `adxl345_set_interrupt` (header lines 174-179)
writes the full interrupt sub-record of the handle across the interrupt
registers (section 4.6). -/
def adxl345_set_interrupt (dev : adxl345_t) (s : BusState) :
    adxl345_t × BusState :=
  let it := dev.params.interrupt
  (dev, (writeAll s
    [ (REG_THRESH_TAP, [it.thres_tap]),
      (REG_DUR, [it.thres_dur]),
      (REG_LATENT, [it.thres_latent]),
      (REG_WINDOW, [it.thres_window]),
      (REG_THRESH_ACT, [it.thres_act]),
      (REG_THRESH_INACT, [it.thres_inact]),
      (REG_TIME_INACT, [it.time_inact]),
      (REG_ACT_INACT_CTL, [it.act_inact]),
      (REG_THRESH_FF, [it.thres_ff]),
      (REG_TIME_FF, [it.time_ff]),
      (REG_TAP_AXES, [it.tap_axes]),
      (REG_INT_MAP, [it.map]),
      (REG_INT_ENABLE, [it.enable]) ]).2)

/-- Spec-side definition, following the words of the section 4.2 table: the
exact fractional scale factor (mg per LSB) as a rational, by {range,
full-resolution} pair.  Used to compare the spec's table against what the
driver's integer arithmetic can produce. -/
def specTableScale (range full_res : Nat) : ℚ :=
  if full_res ≠ 0 then 39 / 10
  else if range = 0 then 39 / 10
  else if range = 1 then 78 / 10
  else if range = 2 then 156 / 10
  else 312 / 10

/-! ## Concrete fixtures used by witnesses and counterexamples -/

/-- Zeroed interrupt sub-record. -/
def it0 : adxl345_interrupt_t :=
  { source := 0, map := 0, enable := 0, thres_tap := 0, thres_dur := 0,
    thres_latent := 0, thres_window := 0, thres_act := 0, thres_inact := 0,
    time_inact := 0, thres_ff := 0, time_ff := 0, act_inact := 0, tap_axes := 0 }

/-- Concrete configuration: address 0x53, range 0 (2 g), rate 10 (100 Hz),
fixed resolution. -/
def p0 : adxl345_params_t :=
  { i2c := 0, addr := 0x53, interrupt := it0, offset0 := 0, offset1 := 0,
    offset2 := 0, range := 0, rate := 10, full_res := 0, scale_factor := 0 }

/-- Concrete device handle holding `p0`. -/
def dev0 : adxl345_t := { params := p0 }

/-- Bus with an answering ADXL345 (identity byte present), x-axis raw value 1,
every transaction succeeding. -/
def busOK : BusState :=
  { regs := fun a => if a = REG_DEVID then ADXL345_CHIP_ID
                     else if a = REG_DATAX0 then 1 else 0,
    okSeq := fun _ => true, txn := 0, trace := [] }

/-- Bus whose device answers the wrong identity byte; transactions succeed. -/
def busNoDev : BusState :=
  { regs := fun _ => 0, okSeq := fun _ => true, txn := 0, trace := [] }

/-- Device handle as initialized by the driver against `busOK` with `p0`. -/
def devInit : adxl345_t := (adxl345_init dev0 p0 busOK).2.1

/-! ## Helper lemmas -/

theorem wrap16_eq_self (z : Int) (h1 : -32768 ≤ z) (h2 : z ≤ 32767) :
    wrap16 z = z := by
  unfold wrap16
  have ha : (0 : Int) ≤ z + 32768 := by omega
  have hb : z + 32768 < 65536 := by omega
  rw [Int.emod_eq_of_lt ha hb]
  omega

theorem testBit_or_pow (v b i : Nat) (h : i ≠ b) :
    (v ||| 1 <<< b).testBit i = v.testBit i := by
  have hpow : (1 : Nat) <<< b = 2 ^ b := by
    rw [Nat.shiftLeft_eq, one_mul]
  rw [hpow, Nat.testBit_or, Nat.testBit_two_pow]
  simp [Ne.symm h]

theorem testBit_or_pow_self (v b : Nat) :
    (v ||| 1 <<< b).testBit b = true := by
  have hpow : (1 : Nat) <<< b = 2 ^ b := by
    rw [Nat.shiftLeft_eq, one_mul]
  rw [hpow, Nat.testBit_or, Nat.testBit_two_pow]
  simp

theorem testBit_and_247 (v i : Nat) (hv : v < 256) (h : i ≠ 3) :
    (v &&& 247).testBit i = v.testBit i := by
  rcases lt_or_ge i 8 with hi | hi
  · rw [Nat.testBit_and]
    have h247 : Nat.testBit 247 i = true := by
      interval_cases i <;> first | rfl | exact absurd rfl h
    rw [h247, Bool.and_true]
  · have hpow : (256 : Nat) ≤ 2 ^ i :=
      le_trans (by norm_num : (256 : Nat) ≤ 2 ^ 8) (Nat.pow_le_pow_right (by norm_num) hi)
    have hv8 : v.testBit i = false := Nat.testBit_lt_two_pow (lt_of_lt_of_le hv hpow)
    have hva : (v &&& 247).testBit i = false :=
      Nat.testBit_lt_two_pow
        (lt_of_le_of_lt (Nat.and_le_left) (lt_of_lt_of_le hv hpow))
    rw [hv8, hva]

theorem testBit_and_247_bit3 (v : Nat) : (v &&& 247).testBit 3 = false := by
  rw [Nat.testBit_and]
  have : Nat.testBit 247 3 = false := rfl
  rw [this, Bool.and_false]

theorem or_pow_lt_256 (v b : Nat) (hv : v < 256) (hb : b < 8) :
    v ||| 1 <<< b < 256 := by
  have hpow : (1 : Nat) <<< b = 2 ^ b := by
    rw [Nat.shiftLeft_eq, one_mul]
  have h2 : (1 : Nat) <<< b < 256 := by
    rw [hpow]
    calc (2 : Nat) ^ b < 2 ^ 8 := Nat.pow_lt_pow_right (by norm_num) hb
    _ = 256 := by norm_num
  have := Nat.or_lt_two_pow (n := 8) (by simpa using hv) (by simpa using h2)
  simpa using this

theorem i2c_write_regs_ok (s : BusState) (reg : Nat) (vals : List Nat)
    (hok : s.okSeq s.txn = true) :
    i2c_write_regs s reg vals =
      (Except.ok (),
       { regs := writeBytes s.regs reg (vals.map (fun v => v % 256)),
         okSeq := s.okSeq, txn := s.txn + 1,
         trace := s.trace ++ [BusOp.writeRegs reg (vals.map (fun v => v % 256))] }) := by
  unfold i2c_write_regs
  simp [hok]

theorem i2c_write_regs_err (s : BusState) (reg : Nat) (vals : List Nat)
    (hok : s.okSeq s.txn = false) :
    i2c_write_regs s reg vals =
      (Except.error (),
       { regs := s.regs, okSeq := s.okSeq, txn := s.txn + 1,
         trace := s.trace ++ [BusOp.writeRegs reg (vals.map (fun v => v % 256))] }) := by
  unfold i2c_write_regs
  simp [hok]

theorem writeAll_cons (s : BusState) (w : Nat × List Nat) (ws : List (Nat × List Nat)) :
    writeAll s (w :: ws) =
      match i2c_write_regs s w.1 w.2 with
      | (Except.ok _, s1) => writeAll s1 ws
      | (Except.error _, s1) => (Except.error (), s1) := rfl

theorem writeAll_result (l : List (Nat × List Nat)) (s : BusState) :
    (writeAll s l).1 = Except.ok () ∨ (writeAll s l).1 = Except.error () := by
  induction l generalizing s with
  | nil => left; rfl
  | cons w ws ih =>
      rw [writeAll_cons]
      by_cases hok : s.okSeq s.txn
      · rw [i2c_write_regs_ok s w.1 w.2 hok]
        exact ih _
      · rw [i2c_write_regs_err s w.1 w.2 (by simpa using hok)]
        right; rfl

theorem writeAll_ok_regs (l : List (Nat × List Nat)) (s : BusState)
    (h : (writeAll s l).1 = Except.ok ()) :
    (writeAll s l).2.regs =
      l.foldl (fun r w => writeBytes r w.1 (w.2.map (fun v => v % 256))) s.regs := by
  induction l generalizing s with
  | nil => rfl
  | cons w ws ih =>
      rw [writeAll_cons] at h ⊢
      by_cases hok : s.okSeq s.txn
      · rw [i2c_write_regs_ok s w.1 w.2 hok] at h ⊢
        rw [List.foldl_cons]
        exact ih _ h
      · rw [i2c_write_regs_err s w.1 w.2 (by simpa using hok)] at h
        simp at h

theorem writeBytes_single (regs : Nat → Nat) (reg v a : Nat) :
    writeBytes regs reg [v] a = if a = reg then v % 256 else regs a := by
  unfold writeBytes writeBytes
  rw [Function.update_apply]

theorem i2c_read_regs_ok (s : BusState) (reg len : Nat)
    (hok : s.okSeq s.txn = true) :
    i2c_read_regs s reg len =
      (Except.ok ((List.range len).map (fun i => s.regs (reg + i) % 256)),
       { regs := s.regs, okSeq := s.okSeq, txn := s.txn + 1,
         trace := s.trace ++ [BusOp.readRegs reg len] }) := by
  unfold i2c_read_regs
  simp [hok]

theorem i2c_read_regs_err (s : BusState) (reg len : Nat)
    (hok : s.okSeq s.txn = false) :
    i2c_read_regs s reg len =
      (Except.error (),
       { regs := s.regs, okSeq := s.okSeq, txn := s.txn + 1,
         trace := s.trace ++ [BusOp.readRegs reg len] }) := by
  unfold i2c_read_regs
  simp [hok]

theorem rmw_power_ctl_spec (dev : adxl345_t) (f : Nat → Nat) (s : BusState)
    (h1 : s.okSeq s.txn = true) (h2 : s.okSeq (s.txn + 1) = true) :
    rmw_power_ctl dev f s =
      (dev,
       { regs := Function.update s.regs REG_POWER_CTL
                   (f (s.regs REG_POWER_CTL % 256) % 256),
         okSeq := s.okSeq, txn := s.txn + 2,
         trace := s.trace ++
           [BusOp.readRegs REG_POWER_CTL 1,
            BusOp.writeRegs REG_POWER_CTL [f (s.regs REG_POWER_CTL % 256) % 256]] }) := by
  unfold rmw_power_ctl
  rw [i2c_read_regs_ok s REG_POWER_CTL 1 h1]
  have hw := i2c_write_regs_ok
    { regs := s.regs, okSeq := s.okSeq, txn := s.txn + 1,
      trace := s.trace ++ [BusOp.readRegs REG_POWER_CTL 1] }
    REG_POWER_CTL [f (((List.range 1).map (fun i => s.regs (REG_POWER_CTL + i) % 256)).getD 0 0)]
    (by simpa using h2)
  simp only [show List.range 1 = [0] from rfl, List.map_cons, List.map_nil,
    List.getD_cons_zero] at hw ⊢
  rw [hw]
  simp [writeBytes, List.append_assoc]

/-! ## Claim theorems -/

/-- C2: every invocation of `adxl345_read` issues exactly one bus operation
for the axis data, a single multi-byte read of length 6 starting at the first
axis-data register DATAX0 — the trace grows by precisely that one read, for
every device handle and every bus state (so never two or more partial
reads). -/
theorem adxl345_read_single_six_byte_transaction (dev : adxl345_t) (s : BusState) :
    ((adxl345_read dev s).2.2).trace = s.trace ++ [BusOp.readRegs REG_DATAX0 6] := by
  unfold adxl345_read
  by_cases hok : s.okSeq s.txn
  · rw [i2c_read_regs_ok s REG_DATAX0 6 hok]
  · rw [i2c_read_regs_err s REG_DATAX0 6 (by simpa using hok)]

/-- C9: `adxl345_read` never modifies the device handle: for every handle and
every bus state (register contents and transaction-success oracle), the
handle returned by the call — including its range, rate, full-resolution
flag, scale factor, offsets, interrupt sub-record and bus binding — is the
handle passed in; only the separate output record carries the result. -/
theorem adxl345_read_preserves_handle (dev : adxl345_t) (s : BusState) :
    (adxl345_read dev s).1 = dev := by
  unfold adxl345_read
  by_cases hok : s.okSeq s.txn
  · rw [i2c_read_regs_ok s REG_DATAX0 6 hok]
  · rw [i2c_read_regs_err s REG_DATAX0 6 (by simpa using hok)]

/-- C8: `adxl345_set_bandwidth_rate` performs no validation of its rate
argument: for every byte value the caller supplies — including values outside
the 16 enumerated rate codes 0..15 — the driver writes exactly that value to
the rate register and stores it in the handle's rate field; no other field
changes and no error is surfaced (the operation's result carries no status
code). -/
theorem adxl345_set_bandwidth_rate_unvalidated (dev : adxl345_t) (rate : Nat)
    (s : BusState) (h : rate < 256) :
    (adxl345_set_bandwidth_rate dev rate s).1.params =
        { dev.params with rate := rate } ∧
    (adxl345_set_bandwidth_rate dev rate s).2.trace =
        s.trace ++ [BusOp.writeRegs REG_BW_RATE [rate]] := by
  constructor
  · unfold adxl345_set_bandwidth_rate
    simp [Nat.mod_eq_of_lt h]
  · unfold adxl345_set_bandwidth_rate
    by_cases hok : s.okSeq s.txn
    · rw [i2c_write_regs_ok s _ _ hok]
      simp [Nat.mod_eq_of_lt h]
    · rw [i2c_write_regs_err s _ _ (by simpa using hok)]
      simp [Nat.mod_eq_of_lt h]

/-- Witness for C8 at the out-of-enumeration rate code 200. -/
theorem adxl345_set_bandwidth_rate_unvalidated_witness :
    (200 : Nat) < 256 ∧
    ((adxl345_set_bandwidth_rate dev0 200 busOK).1.params =
        { dev0.params with rate := 200 } ∧
     (adxl345_set_bandwidth_rate dev0 200 busOK).2.trace =
        busOK.trace ++ [BusOp.writeRegs REG_BW_RATE [200]]) :=
  ⟨by decide, adxl345_set_bandwidth_rate_unvalidated dev0 200 busOK (by decide)⟩

theorem fifo_pack_arith : ∀ m < 4, ∀ o < 2, ∀ v < 32,
    (m <<< 6) ||| (o <<< 5) ||| v = m * 64 + o * 32 + v := by decide

/-- C7: for each of the four FIFO modes, every trigger-pin selection and
every 5-bit watermark value, `adxl345_set_fifo_mode` issues a single write of
the FIFO control register whose byte is the bit-exact packing of the
documented layout — mode in bits 7:6, trigger output in bit 5, sample count
in bits 4:0 — so that the three fields are recoverable from the byte. -/
theorem adxl345_set_fifo_mode_packs (dev : adxl345_t) (mode output value : Nat)
    (s : BusState) (hm : mode < 4) (ho : output < 2) (hv : value < 32) :
    (adxl345_set_fifo_mode dev mode output value s).2.trace =
        s.trace ++ [BusOp.writeRegs REG_FIFO_CTL [mode * 64 + output * 32 + value]] ∧
    (mode * 64 + output * 32 + value) / 64 = mode ∧
    ((mode * 64 + output * 32 + value) / 32) % 2 = output ∧
    (mode * 64 + output * 32 + value) % 32 = value := by
  have hpack := fifo_pack_arith mode hm output ho value hv
  refine ⟨?_, by omega, by omega, by omega⟩
  unfold adxl345_set_fifo_mode
  have hlt : (mode <<< 6) ||| (output <<< 5) ||| value < 256 := by
    rw [hpack]; omega
  have hlt2 : mode * 64 + output * 32 + value < 256 := by omega
  by_cases hok : s.okSeq s.txn
  · rw [i2c_write_regs_ok s _ _ hok]
    simp [hpack, Nat.mod_eq_of_lt hlt2]
  · rw [i2c_write_regs_err s _ _ (by simpa using hok)]
    simp [hpack, Nat.mod_eq_of_lt hlt2]

/-- Witness for C7 in trigger mode on pin INT2 with watermark 16. -/
theorem adxl345_set_fifo_mode_packs_witness :
    ((3 : Nat) < 4 ∧ (1 : Nat) < 2 ∧ (16 : Nat) < 32) ∧
    ((adxl345_set_fifo_mode dev0 3 1 16 busOK).2.trace =
        busOK.trace ++ [BusOp.writeRegs REG_FIFO_CTL [3 * 64 + 1 * 32 + 16]] ∧
     (3 * 64 + 1 * 32 + 16) / 64 = 3 ∧
     ((3 * 64 + 1 * 32 + 16) / 32) % 2 = 1 ∧
     (3 * 64 + 1 * 32 + 16) % 32 = 16) :=
  ⟨⟨by decide, by decide, by decide⟩,
   adxl345_set_fifo_mode_packs dev0 3 1 16 busOK (by decide) (by decide) (by decide)⟩

theorem rmw_power_ctl_frame (dev : adxl345_t) (f : Nat → Nat) (s : BusState)
    (h1 : s.okSeq s.txn = true) (h2 : s.okSeq (s.txn + 1) = true)
    (hlt : f (s.regs REG_POWER_CTL % 256) < 256) :
    (rmw_power_ctl dev f s).2.trace =
        s.trace ++ [BusOp.readRegs REG_POWER_CTL 1,
                    BusOp.writeRegs REG_POWER_CTL [f (s.regs REG_POWER_CTL % 256)]] ∧
    (∀ a, a ≠ REG_POWER_CTL → (rmw_power_ctl dev f s).2.regs a = s.regs a) ∧
    (rmw_power_ctl dev f s).2.regs REG_POWER_CTL = f (s.regs REG_POWER_CTL % 256) := by
  rw [rmw_power_ctl_spec dev f s h1 h2]
  refine ⟨by simp [Nat.mod_eq_of_lt hlt], ?_, ?_⟩
  · intro a ha
    exact Function.update_noteq ha _ _
  · simp [Nat.mod_eq_of_lt hlt]

/-- C6: each mode setter is a single-register read-modify-write on the
power-control register: for every prior register byte it issues exactly one
read and one write of that register (so no other register is touched), the
written byte agrees with the prior byte on every bit other than the
documented mode bit, and the documented bit itself is set (measure / sleep /
autosleep) or cleared (standby). -/
theorem mode_setters_single_bit_rmw :
    (∀ (dev : adxl345_t) (s : BusState),
      s.okSeq s.txn = true → s.okSeq (s.txn + 1) = true →
      (adxl345_set_measure dev s).2.trace =
          s.trace ++ [BusOp.readRegs REG_POWER_CTL 1,
            BusOp.writeRegs REG_POWER_CTL
              [s.regs REG_POWER_CTL % 256 ||| 1 <<< BIT_MEASURE]] ∧
      (∀ a, a ≠ REG_POWER_CTL → (adxl345_set_measure dev s).2.regs a = s.regs a) ∧
      (∀ i, i ≠ BIT_MEASURE →
        ((adxl345_set_measure dev s).2.regs REG_POWER_CTL).testBit i =
          (s.regs REG_POWER_CTL % 256).testBit i) ∧
      ((adxl345_set_measure dev s).2.regs REG_POWER_CTL).testBit BIT_MEASURE = true) ∧
    (∀ (dev : adxl345_t) (s : BusState),
      s.okSeq s.txn = true → s.okSeq (s.txn + 1) = true →
      (adxl345_set_standby dev s).2.trace =
          s.trace ++ [BusOp.readRegs REG_POWER_CTL 1,
            BusOp.writeRegs REG_POWER_CTL [s.regs REG_POWER_CTL % 256 &&& 0xF7]] ∧
      (∀ a, a ≠ REG_POWER_CTL → (adxl345_set_standby dev s).2.regs a = s.regs a) ∧
      (∀ i, i ≠ BIT_MEASURE →
        ((adxl345_set_standby dev s).2.regs REG_POWER_CTL).testBit i =
          (s.regs REG_POWER_CTL % 256).testBit i) ∧
      ((adxl345_set_standby dev s).2.regs REG_POWER_CTL).testBit BIT_MEASURE = false) ∧
    (∀ (dev : adxl345_t) (s : BusState),
      s.okSeq s.txn = true → s.okSeq (s.txn + 1) = true →
      (adxl345_set_sleep dev s).2.trace =
          s.trace ++ [BusOp.readRegs REG_POWER_CTL 1,
            BusOp.writeRegs REG_POWER_CTL
              [s.regs REG_POWER_CTL % 256 ||| 1 <<< BIT_SLEEP]] ∧
      (∀ a, a ≠ REG_POWER_CTL → (adxl345_set_sleep dev s).2.regs a = s.regs a) ∧
      (∀ i, i ≠ BIT_SLEEP →
        ((adxl345_set_sleep dev s).2.regs REG_POWER_CTL).testBit i =
          (s.regs REG_POWER_CTL % 256).testBit i) ∧
      ((adxl345_set_sleep dev s).2.regs REG_POWER_CTL).testBit BIT_SLEEP = true) ∧
    (∀ (dev : adxl345_t) (s : BusState),
      s.okSeq s.txn = true → s.okSeq (s.txn + 1) = true →
      (adxl345_set_autosleep dev s).2.trace =
          s.trace ++ [BusOp.readRegs REG_POWER_CTL 1,
            BusOp.writeRegs REG_POWER_CTL
              [s.regs REG_POWER_CTL % 256 ||| 1 <<< BIT_AUTOSLEEP]] ∧
      (∀ a, a ≠ REG_POWER_CTL → (adxl345_set_autosleep dev s).2.regs a = s.regs a) ∧
      (∀ i, i ≠ BIT_AUTOSLEEP →
        ((adxl345_set_autosleep dev s).2.regs REG_POWER_CTL).testBit i =
          (s.regs REG_POWER_CTL % 256).testBit i) ∧
      ((adxl345_set_autosleep dev s).2.regs REG_POWER_CTL).testBit BIT_AUTOSLEEP
        = true) := by
  refine ⟨?_, ?_, ?_, ?_⟩
  · intro dev s h1 h2
    have hv : s.regs REG_POWER_CTL % 256 < 256 := Nat.mod_lt _ (by norm_num)
    have hlt : s.regs REG_POWER_CTL % 256 ||| 1 <<< BIT_MEASURE < 256 :=
      or_pow_lt_256 _ _ hv (by norm_num [BIT_MEASURE])
    obtain ⟨ht, hfr, hreg⟩ :=
      rmw_power_ctl_frame dev (fun v => v ||| 1 <<< BIT_MEASURE) s h1 h2 hlt
    exact ⟨ht, hfr,
           fun i hi => by
             unfold adxl345_set_measure
             rw [hreg]
             exact testBit_or_pow _ _ i hi,
           by unfold adxl345_set_measure
              rw [hreg]
              exact testBit_or_pow_self _ _⟩
  · intro dev s h1 h2
    have hv : s.regs REG_POWER_CTL % 256 < 256 := Nat.mod_lt _ (by norm_num)
    have hlt : s.regs REG_POWER_CTL % 256 &&& 0xF7 < 256 :=
      lt_of_le_of_lt Nat.and_le_left hv
    obtain ⟨ht, hfr, hreg⟩ :=
      rmw_power_ctl_frame dev (fun v => v &&& 0xF7) s h1 h2 hlt
    exact ⟨ht, hfr,
           fun i hi => by
             unfold adxl345_set_standby
             rw [hreg]
             exact testBit_and_247 _ i hv hi,
           by unfold adxl345_set_standby
              rw [hreg]
              exact testBit_and_247_bit3 _⟩
  · intro dev s h1 h2
    have hv : s.regs REG_POWER_CTL % 256 < 256 := Nat.mod_lt _ (by norm_num)
    have hlt : s.regs REG_POWER_CTL % 256 ||| 1 <<< BIT_SLEEP < 256 :=
      or_pow_lt_256 _ _ hv (by norm_num [BIT_SLEEP])
    obtain ⟨ht, hfr, hreg⟩ :=
      rmw_power_ctl_frame dev (fun v => v ||| 1 <<< BIT_SLEEP) s h1 h2 hlt
    exact ⟨ht, hfr,
           fun i hi => by
             unfold adxl345_set_sleep
             rw [hreg]
             exact testBit_or_pow _ _ i hi,
           by unfold adxl345_set_sleep
              rw [hreg]
              exact testBit_or_pow_self _ _⟩
  · intro dev s h1 h2
    have hv : s.regs REG_POWER_CTL % 256 < 256 := Nat.mod_lt _ (by norm_num)
    have hlt : s.regs REG_POWER_CTL % 256 ||| 1 <<< BIT_AUTOSLEEP < 256 :=
      or_pow_lt_256 _ _ hv (by norm_num [BIT_AUTOSLEEP])
    obtain ⟨ht, hfr, hreg⟩ :=
      rmw_power_ctl_frame dev (fun v => v ||| 1 <<< BIT_AUTOSLEEP) s h1 h2 hlt
    exact ⟨ht, hfr,
           fun i hi => by
             unfold adxl345_set_autosleep
             rw [hreg]
             exact testBit_or_pow _ _ i hi,
           by unfold adxl345_set_autosleep
              rw [hreg]
              exact testBit_or_pow_self _ _⟩

/-- Witness for C6: against a concrete bus the four setters leave their
documented power-control bit in the documented state, and a register other
than power-control is untouched. -/
theorem mode_setters_single_bit_rmw_witness :
    (busOK.okSeq busOK.txn = true ∧ busOK.okSeq (busOK.txn + 1) = true) ∧
    ((adxl345_set_measure dev0 busOK).2.regs REG_POWER_CTL).testBit BIT_MEASURE
      = true ∧
    ((adxl345_set_standby dev0 busOK).2.regs REG_POWER_CTL).testBit BIT_MEASURE
      = false ∧
    ((adxl345_set_sleep dev0 busOK).2.regs REG_POWER_CTL).testBit BIT_SLEEP
      = true ∧
    ((adxl345_set_autosleep dev0 busOK).2.regs REG_POWER_CTL).testBit BIT_AUTOSLEEP
      = true ∧
    (adxl345_set_measure dev0 busOK).2.regs REG_DATA_FORMAT
      = busOK.regs REG_DATA_FORMAT :=
  ⟨⟨rfl, rfl⟩,
   (mode_setters_single_bit_rmw.1 dev0 busOK rfl rfl).2.2.2,
   (mode_setters_single_bit_rmw.2.1 dev0 busOK rfl rfl).2.2.2,
   (mode_setters_single_bit_rmw.2.2.1 dev0 busOK rfl rfl).2.2.2,
   (mode_setters_single_bit_rmw.2.2.2 dev0 busOK rfl rfl).2.2.2,
   (mode_setters_single_bit_rmw.1 dev0 busOK rfl rfl).2.1 REG_DATA_FORMAT
     (by decide)⟩

/-- C4: initialization against a device that answers the identity probe with
a wrong identity byte returns `ADXL345_NODEV` and leaves the handle exactly
as it was: no field of the stored configuration is mutated. -/
theorem adxl345_init_nodev_preserves_handle (dev : adxl345_t)
    (p : adxl345_params_t) (s : BusState) (h1 : s.okSeq s.txn = true)
    (h2 : s.regs REG_DEVID % 256 ≠ ADXL345_CHIP_ID) :
    (adxl345_init dev p s).1 = ADXL345_NODEV ∧
    (adxl345_init dev p s).2.1 = dev := by
  unfold adxl345_init
  rw [i2c_read_regs_ok s REG_DEVID 1 h1]
  simp only [show List.range 1 = [0] from rfl, List.map_cons, List.map_nil,
    List.getD_cons_zero, Nat.add_zero]
  rw [if_pos h2]
  exact ⟨rfl, rfl⟩

/-- Witness for C4 against a simulated device that answers 0 instead of the
ADXL345 identity byte. -/
theorem adxl345_init_nodev_preserves_handle_witness :
    (busNoDev.okSeq busNoDev.txn = true ∧
     busNoDev.regs REG_DEVID % 256 ≠ ADXL345_CHIP_ID) ∧
    ((adxl345_init dev0 p0 busNoDev).1 = ADXL345_NODEV ∧
     (adxl345_init dev0 p0 busNoDev).2.1 = dev0) :=
  ⟨⟨rfl, by decide⟩,
   adxl345_init_nodev_preserves_handle dev0 p0 busNoDev rfl (by decide)⟩

theorem writeAll_ok_iff (l : List (Nat × List Nat)) (s : BusState) :
    (writeAll s l).1 = Except.ok () ↔
      ∀ i, i < l.length → s.okSeq (s.txn + i) = true := by
  induction l generalizing s with
  | nil => simp [writeAll]
  | cons w ws ih =>
      rw [writeAll_cons]
      by_cases hok : s.okSeq s.txn
      · rw [i2c_write_regs_ok s w.1 w.2 hok]
        rw [ih]
        constructor
        · intro h i hi
          cases i with
          | zero => simpa using hok
          | succ j =>
              have hj : j < ws.length := by simpa using hi
              have hstep := h j hj
              have harr : s.txn + (j + 1) = s.txn + 1 + j := by omega
              rw [harr]
              exact hstep
        · intro h i hi
          have hstep := h (i + 1) (by simpa using Nat.succ_lt_succ hi)
          have harr : s.txn + 1 + i = s.txn + (i + 1) := by omega
          show s.okSeq (s.txn + 1 + i) = true
          rw [harr]
          exact hstep
      · rw [i2c_write_regs_err s w.1 w.2 (by simpa using hok)]
        refine iff_of_false (by simp) ?_
        intro hall
        have h0 := hall 0 (by simp)
        rw [Nat.add_zero] at h0
        exact hok h0

theorem adxl345_init_eval_probe_fail (dev : adxl345_t) (p : adxl345_params_t)
    (s : BusState) (hok : s.okSeq s.txn = false) :
    (adxl345_init dev p s).1 = ADXL345_NOI2C := by
  unfold adxl345_init
  rw [i2c_read_regs_err s REG_DEVID 1 hok]

theorem adxl345_init_eval_wrong_id (dev : adxl345_t) (p : adxl345_params_t)
    (s : BusState) (hok : s.okSeq s.txn = true)
    (hid : s.regs REG_DEVID % 256 ≠ ADXL345_CHIP_ID) :
    (adxl345_init dev p s).1 = ADXL345_NODEV := by
  unfold adxl345_init
  rw [i2c_read_regs_ok s REG_DEVID 1 hok]
  simp only [show List.range 1 = [0] from rfl, List.map_cons, List.map_nil,
    List.getD_cons_zero, Nat.add_zero]
  rw [if_pos hid]

theorem adxl345_init_eval_writes_ok (dev : adxl345_t) (p : adxl345_params_t)
    (s : BusState) (hok : s.okSeq s.txn = true)
    (hid : s.regs REG_DEVID % 256 = ADXL345_CHIP_ID)
    (hw : (writeAll
        { regs := s.regs, okSeq := s.okSeq, txn := s.txn + 1,
          trace := s.trace ++ [BusOp.readRegs REG_DEVID 1] }
        (configWrites
          { p with scale_factor := derive_scale_factor p.full_res p.range })).1
      = Except.ok ()) :
    (adxl345_init dev p s).1 = ADXL345_OK := by
  unfold adxl345_init
  rw [i2c_read_regs_ok s REG_DEVID 1 hok]
  simp only [show List.range 1 = [0] from rfl, List.map_cons, List.map_nil,
    List.getD_cons_zero, Nat.add_zero]
  rw [if_neg (not_not_intro hid)]
  rcases hw2 : writeAll
      { regs := s.regs, okSeq := s.okSeq, txn := s.txn + 1,
        trace := s.trace ++ [BusOp.readRegs REG_DEVID 1] }
      (configWrites
        { p with scale_factor := derive_scale_factor p.full_res p.range })
    with ⟨wres, s2⟩
  rw [hw2] at hw
  cases wres with
  | ok u => rfl
  | error u => exact absurd hw (by simp)

theorem adxl345_init_eval_writes_err (dev : adxl345_t) (p : adxl345_params_t)
    (s : BusState) (hok : s.okSeq s.txn = true)
    (hid : s.regs REG_DEVID % 256 = ADXL345_CHIP_ID)
    (hw : (writeAll
        { regs := s.regs, okSeq := s.okSeq, txn := s.txn + 1,
          trace := s.trace ++ [BusOp.readRegs REG_DEVID 1] }
        (configWrites
          { p with scale_factor := derive_scale_factor p.full_res p.range })).1
      = Except.error ()) :
    (adxl345_init dev p s).1 = ADXL345_NOI2C := by
  unfold adxl345_init
  rw [i2c_read_regs_ok s REG_DEVID 1 hok]
  simp only [show List.range 1 = [0] from rfl, List.map_cons, List.map_nil,
    List.getD_cons_zero, Nat.add_zero]
  rw [if_neg (not_not_intro hid)]
  rcases hw2 : writeAll
      { regs := s.regs, okSeq := s.okSeq, txn := s.txn + 1,
        trace := s.trace ++ [BusOp.readRegs REG_DEVID 1] }
      (configWrites
        { p with scale_factor := derive_scale_factor p.full_res p.range })
    with ⟨wres, s2⟩
  rw [hw2] at hw
  cases wres with
  | ok u => exact absurd hw (by simp)
  | error u => rfl

/-- C3: for every handle, configuration and bus behaviour, `adxl345_init`
returns one of exactly three codes — `ADXL345_OK`, `ADXL345_NODEV`,
`ADXL345_NOI2C` — and the three are fully characterized: `ADXL345_NODEV`
precisely when the identity-probe transaction succeeds but the device answers
a wrong identity byte (so device-not-found arises only from the identity
probe; the other driver operations are void and return no code at all);
`ADXL345_OK` precisely when the probe succeeds with the right identity byte
and every configuration-write transaction succeeds; and `ADXL345_NOI2C`
precisely when some underlying bus transaction of the run fails — the probe
itself, or, identity confirmed, one of the configuration writes. -/
theorem adxl345_init_result_codes (dev : adxl345_t) (p : adxl345_params_t)
    (s : BusState) :
    ((adxl345_init dev p s).1 = ADXL345_OK ∨
     (adxl345_init dev p s).1 = ADXL345_NODEV ∨
     (adxl345_init dev p s).1 = ADXL345_NOI2C) ∧
    ((adxl345_init dev p s).1 = ADXL345_NODEV ↔
      s.okSeq s.txn = true ∧ s.regs REG_DEVID % 256 ≠ ADXL345_CHIP_ID) ∧
    ((adxl345_init dev p s).1 = ADXL345_OK ↔
      (s.okSeq s.txn = true ∧ s.regs REG_DEVID % 256 = ADXL345_CHIP_ID ∧
       ∀ i, i < (configWrites
            { p with
                scale_factor := derive_scale_factor p.full_res p.range }).length →
         s.okSeq (s.txn + 1 + i) = true)) ∧
    ((adxl345_init dev p s).1 = ADXL345_NOI2C ↔
      (s.okSeq s.txn = false ∨
       (s.okSeq s.txn = true ∧ s.regs REG_DEVID % 256 = ADXL345_CHIP_ID ∧
        ¬ ∀ i, i < (configWrites
              { p with
                  scale_factor := derive_scale_factor p.full_res p.range }).length →
          s.okSeq (s.txn + 1 + i) = true))) := by
  by_cases hok : s.okSeq s.txn
  · by_cases hid : s.regs REG_DEVID % 256 = ADXL345_CHIP_ID
    · rcases writeAll_result
          (configWrites
            { p with scale_factor := derive_scale_factor p.full_res p.range })
          { regs := s.regs, okSeq := s.okSeq, txn := s.txn + 1,
            trace := s.trace ++ [BusOp.readRegs REG_DEVID 1] }
        with hw | hw
      · have he := adxl345_init_eval_writes_ok dev p s hok hid hw
        have hall : ∀ i, i < (configWrites
              { p with
                  scale_factor := derive_scale_factor p.full_res p.range }).length →
            s.okSeq (s.txn + 1 + i) = true :=
          fun i hi => (writeAll_ok_iff _ _).mp hw i hi
        refine ⟨Or.inl he, ?_, ?_, ?_⟩
        · rw [he]
          exact iff_of_false (by decide) (fun hc => hc.2 hid)
        · rw [he]
          exact iff_of_true rfl ⟨hok, hid, hall⟩
        · rw [he]
          refine iff_of_false (by decide) ?_
          rintro (hf | ⟨hta, htb, hna⟩)
          · rw [hok] at hf
            exact Bool.noConfusion hf
          · exact hna hall
      · have he := adxl345_init_eval_writes_err dev p s hok hid hw
        have hna : ¬ ∀ i, i < (configWrites
              { p with
                  scale_factor := derive_scale_factor p.full_res p.range }).length →
            s.okSeq (s.txn + 1 + i) = true := by
          intro hall
          have hok2 := (writeAll_ok_iff
            (configWrites
              { p with scale_factor := derive_scale_factor p.full_res p.range })
            { regs := s.regs, okSeq := s.okSeq, txn := s.txn + 1,
              trace := s.trace ++ [BusOp.readRegs REG_DEVID 1] }).mpr
            (fun i hi => hall i hi)
          rw [hw] at hok2
          exact Except.noConfusion hok2
        refine ⟨Or.inr (Or.inr he), ?_, ?_, ?_⟩
        · rw [he]
          exact iff_of_false (by decide) (fun hc => hc.2 hid)
        · rw [he]
          exact iff_of_false (by decide) (fun hc => hna hc.2.2)
        · rw [he]
          exact iff_of_true rfl (Or.inr ⟨hok, hid, hna⟩)
    · have he := adxl345_init_eval_wrong_id dev p s hok hid
      refine ⟨Or.inr (Or.inl he), ?_, ?_, ?_⟩
      · rw [he]
        exact iff_of_true rfl ⟨hok, hid⟩
      · rw [he]
        exact iff_of_false (by decide) (fun hc => hid hc.2.1)
      · rw [he]
        refine iff_of_false (by decide) ?_
        rintro (hf | ⟨hta, htb, hna⟩)
        · rw [hok] at hf
          exact Bool.noConfusion hf
        · exact hid htb
  · have hokf : s.okSeq s.txn = false := by simpa using hok
    have he := adxl345_init_eval_probe_fail dev p s hokf
    refine ⟨Or.inr (Or.inr he), ?_, ?_, ?_⟩
    · rw [he]
      refine iff_of_false (by decide) ?_
      intro hc
      rw [hokf] at hc
      exact Bool.noConfusion hc.1
    · rw [he]
      refine iff_of_false (by decide) ?_
      intro hc
      rw [hokf] at hc
      exact Bool.noConfusion hc.1
    · rw [he]
      exact iff_of_true rfl (Or.inl hokf)

/-- C5: after a successful `adxl345_init`, the register writes it issued
leave the power-control register at the standby value 0 — in particular the
measure bit is clear — so the device does not sample until the caller
explicitly invokes `adxl345_set_measure`. -/
theorem adxl345_init_leaves_standby (dev : adxl345_t) (p : adxl345_params_t)
    (s : BusState) (h : (adxl345_init dev p s).1 = ADXL345_OK) :
    (adxl345_init dev p s).2.2.regs REG_POWER_CTL = 0 ∧
    Nat.testBit ((adxl345_init dev p s).2.2.regs REG_POWER_CTL) BIT_MEASURE
      = false := by
  suffices hreg : (adxl345_init dev p s).2.2.regs REG_POWER_CTL = 0 by
    refine ⟨hreg, ?_⟩
    rw [hreg]
    rfl
  unfold adxl345_init at h ⊢
  by_cases hok : s.okSeq s.txn
  · rw [i2c_read_regs_ok s REG_DEVID 1 hok] at h ⊢
    simp only [show List.range 1 = [0] from rfl, List.map_cons, List.map_nil,
      List.getD_cons_zero, Nat.add_zero] at h ⊢
    by_cases hid : s.regs REG_DEVID % 256 ≠ ADXL345_CHIP_ID
    · rw [if_pos hid] at h
      have hbad : ADXL345_NODEV = ADXL345_OK := h
      exact absurd hbad (by decide)
    · rw [if_neg hid] at h ⊢
      rcases hw : writeAll
          { regs := s.regs, okSeq := s.okSeq, txn := s.txn + 1,
            trace := s.trace ++ [BusOp.readRegs REG_DEVID 1] }
          (configWrites
            { p with scale_factor := derive_scale_factor p.full_res p.range })
        with ⟨wres, s2⟩
      rw [hw] at h
      cases wres with
      | error u =>
          have hbad : ADXL345_NOI2C = ADXL345_OK := h
          exact absurd hbad (by decide)
      | ok u =>
          have hok2 : (writeAll
              { regs := s.regs, okSeq := s.okSeq, txn := s.txn + 1,
                trace := s.trace ++ [BusOp.readRegs REG_DEVID 1] }
              (configWrites
                { p with
                    scale_factor := derive_scale_factor p.full_res p.range })).1
              = Except.ok () := by rw [hw]
          have hregs : s2.regs =
              (configWrites
                { p with
                    scale_factor := derive_scale_factor p.full_res p.range
                }).foldl
                (fun r w => writeBytes r w.1 (w.2.map (fun v => v % 256)))
                s.regs := by
            have h3 := writeAll_ok_regs _ _ hok2
            rw [hw] at h3
            exact h3
          show s2.regs REG_POWER_CTL = 0
          rw [hregs]
          simp [configWrites, writeBytes_single]
  · rw [i2c_read_regs_err s REG_DEVID 1 (by simpa using hok)] at h
    have hbad : ADXL345_NOI2C = ADXL345_OK := h
    exact absurd hbad (by decide)

/-- Witness for C5: a concrete successful initialization ends with the
power-control register zeroed and the measure bit clear. -/
theorem adxl345_init_leaves_standby_witness :
    (adxl345_init dev0 p0 busOK).1 = ADXL345_OK ∧
    ((adxl345_init dev0 p0 busOK).2.2.regs REG_POWER_CTL = 0 ∧
     Nat.testBit ((adxl345_init dev0 p0 busOK).2.2.regs REG_POWER_CTL)
       BIT_MEASURE = false) :=
  ⟨by decide, adxl345_init_leaves_standby dev0 p0 busOK (by decide)⟩

theorem adxl345_read_eval (dev : adxl345_t) (s : BusState)
    (hok : s.okSeq s.txn = true) :
    (adxl345_read dev s).2.1 =
      { x := wrap16 (rawX s * ((dev.params.scale_factor % 256 : Nat) : Int)),
        y := wrap16 (rawY s * ((dev.params.scale_factor % 256 : Nat) : Int)),
        z := wrap16 (rawZ s * ((dev.params.scale_factor % 256 : Nat) : Int)) } := by
  unfold adxl345_read
  rw [i2c_read_regs_ok s REG_DATAX0 6 hok]
  simp only [show List.range 6 = [0, 1, 2, 3, 4, 5] from rfl, List.map_cons,
    List.map_nil, List.getD_cons_zero, List.getD_cons_succ]
  unfold decodeAxis rawX rawY rawZ
  simp [Nat.mod_mod_of_dvd _ (dvd_refl 256)]

theorem adxl345_init_ok_handle (dev : adxl345_t) (p : adxl345_params_t)
    (s : BusState) (h : (adxl345_init dev p s).1 = ADXL345_OK) :
    (adxl345_init dev p s).2.1 =
      { params :=
          { p with scale_factor := derive_scale_factor p.full_res p.range } } := by
  unfold adxl345_init at h ⊢
  by_cases hok : s.okSeq s.txn
  · rw [i2c_read_regs_ok s REG_DEVID 1 hok] at h ⊢
    simp only [show List.range 1 = [0] from rfl, List.map_cons, List.map_nil,
      List.getD_cons_zero, Nat.add_zero] at h ⊢
    by_cases hid : s.regs REG_DEVID % 256 ≠ ADXL345_CHIP_ID
    · rw [if_pos hid] at h
      have hbad : ADXL345_NODEV = ADXL345_OK := h
      exact absurd hbad (by decide)
    · rw [if_neg hid] at h ⊢
      rcases hw : writeAll
          { regs := s.regs, okSeq := s.okSeq, txn := s.txn + 1,
            trace := s.trace ++ [BusOp.readRegs REG_DEVID 1] }
          (configWrites
            { p with scale_factor := derive_scale_factor p.full_res p.range })
        with ⟨wres, s2⟩
      rw [hw] at h
      cases wres with
      | error u =>
          have hbad : ADXL345_NOI2C = ADXL345_OK := h
          exact absurd hbad (by decide)
      | ok u => rfl
  · rw [i2c_read_regs_err s REG_DEVID 1 (by simpa using hok)] at h
    have hbad : ADXL345_NOI2C = ADXL345_OK := h
    exact absurd hbad (by decide)

/-- C1 counterexample: a device initialized for the {±2 g, fixed-resolution}
pair and a raw x-axis value of 1 LSB.  The section 4.2 table assigns this
pair the scale factor 3.9 mg/LSB, but the driver stores the integer 3 in the
`uint8_t` scale-factor field and produces 3 mg — not the 3.9 mg that
raw × table-scale would require (no `int16_t` output could equal it). -/
theorem adxl345_read_table_scale_counterexample :
    devInit.params.range = 0 ∧ devInit.params.full_res = 0 ∧
    devInit.params.scale_factor = 3 ∧
    rawX busOK = 1 ∧
    specTableScale 0 0 = 39 / 10 ∧
    (((adxl345_read devInit busOK).2.1.x : ℚ) ≠
      ((rawX busOK : ℚ) * specTableScale 0 0)) := by
  refine ⟨by decide, by decide, by decide, by decide,
          by norm_num [specTableScale], ?_⟩
  have hx : (adxl345_read devInit busOK).2.1.x = 3 := by decide
  have hr : rawX busOK = 1 := by decide
  rw [hx, hr]
  norm_num [specTableScale]

/-- C1 (amended): the milli-g value produced by `adxl345_read` equals the raw
signed 16-bit axis value multiplied — in exact integer arithmetic, with no
rounding drift — by the integer scale factor stored in the handle's `uint8_t`
field, whenever that product fits in `int16_t`; and the factor a successful
initialization stores for a {range, full-resolution} pair is the section 4.2
table value truncated to an integer: 3 in full-resolution mode and
3 / 7 / 15 / 31 for the four fixed-resolution ranges. -/
theorem adxl345_read_exact_integer_scaling (dev : adxl345_t) (s : BusState)
    (hok : s.okSeq s.txn = true)
    (hx1 : -32768 ≤ rawX s * ((dev.params.scale_factor % 256 : Nat) : Int))
    (hx2 : rawX s * ((dev.params.scale_factor % 256 : Nat) : Int) ≤ 32767)
    (hy1 : -32768 ≤ rawY s * ((dev.params.scale_factor % 256 : Nat) : Int))
    (hy2 : rawY s * ((dev.params.scale_factor % 256 : Nat) : Int) ≤ 32767)
    (hz1 : -32768 ≤ rawZ s * ((dev.params.scale_factor % 256 : Nat) : Int))
    (hz2 : rawZ s * ((dev.params.scale_factor % 256 : Nat) : Int) ≤ 32767) :
    ((adxl345_read dev s).2.1.x =
        rawX s * ((dev.params.scale_factor % 256 : Nat) : Int) ∧
     (adxl345_read dev s).2.1.y =
        rawY s * ((dev.params.scale_factor % 256 : Nat) : Int) ∧
     (adxl345_read dev s).2.1.z =
        rawZ s * ((dev.params.scale_factor % 256 : Nat) : Int)) ∧
    (∀ (dev2 : adxl345_t) (p : adxl345_params_t) (s2 : BusState),
      (adxl345_init dev2 p s2).1 = ADXL345_OK →
      (adxl345_init dev2 p s2).2.1.params.scale_factor =
        derive_scale_factor p.full_res p.range) := by
  constructor
  · rw [adxl345_read_eval dev s hok]
    exact ⟨wrap16_eq_self _ hx1 hx2, wrap16_eq_self _ hy1 hy2,
           wrap16_eq_self _ hz1 hz2⟩
  · intro dev2 p s2 h
    rw [adxl345_init_ok_handle dev2 p s2 h]

/-- Witness for the amended C1: the initialized {±2 g, fixed-resolution}
device decodes a raw x value of 1 LSB to exactly 1 × 3 = 3 mg. -/
theorem adxl345_read_exact_integer_scaling_witness :
    (busOK.okSeq busOK.txn = true ∧
     -32768 ≤ rawX busOK * ((devInit.params.scale_factor % 256 : Nat) : Int) ∧
     rawX busOK * ((devInit.params.scale_factor % 256 : Nat) : Int) ≤ 32767 ∧
     (adxl345_init dev0 p0 busOK).1 = ADXL345_OK) ∧
    (adxl345_read devInit busOK).2.1.x =
      rawX busOK * ((devInit.params.scale_factor % 256 : Nat) : Int) ∧
    (adxl345_init dev0 p0 busOK).2.1.params.scale_factor =
      derive_scale_factor p0.full_res p0.range :=
  ⟨⟨rfl, by decide, by decide, by decide⟩,
   (adxl345_read_exact_integer_scaling devInit busOK rfl
      (by decide) (by decide) (by decide) (by decide) (by decide)
      (by decide)).1.1,
   (adxl345_read_exact_integer_scaling devInit busOK rfl
      (by decide) (by decide) (by decide) (by decide) (by decide)
      (by decide)).2 dev0 p0 busOK (by decide)⟩

theorem nat_cast_ne_tenths (n k : Nat) (hk : k % 10 ≠ 0) :
    (n : ℚ) ≠ (k : ℚ) / 10 := by
  intro h
  have h1 : (n : ℚ) * 10 = (k : ℚ) := by
    rw [h]
    field_simp
  have h2 : ((n * 10 : Nat) : ℚ) = ((k : Nat) : ℚ) := by
    push_cast
    exact h1
  have h3 : n * 10 = k := Nat.cast_injective h2
  omega

/-- C10: the conversion from raw axis value to milli-g multiplies by the
stored scale factor reduced to its `uint8_t` byte — an integer in 0..255 —
for every handle and bus state; the factor derived at initialization is such
a byte; and no integer (in particular no byte) equals the fractional per-LSB
table values 3.9, 7.8, 15.6 or 31.2, so they are not representable in the
stored scale factor. -/
theorem scale_factor_is_uint8_integer :
    (∀ (dev : adxl345_t) (s : BusState), s.okSeq s.txn = true →
      (adxl345_read dev s).2.1.x =
        wrap16 (rawX s * ((dev.params.scale_factor % 256 : Nat) : Int))) ∧
    (∀ sf : Nat, sf % 256 ≤ 255) ∧
    (∀ full_res range : Nat, derive_scale_factor full_res range ≤ 255) ∧
    (∀ n : Nat, ((n : ℚ) ≠ 39 / 10) ∧ ((n : ℚ) ≠ 78 / 10) ∧
      ((n : ℚ) ≠ 156 / 10) ∧ ((n : ℚ) ≠ 312 / 10)) := by
  refine ⟨?_, ?_, ?_, ?_⟩
  · intro dev s hok
    rw [adxl345_read_eval dev s hok]
  · intro sf
    have := Nat.mod_lt sf (show 0 < 256 by norm_num)
    omega
  · intro full_res range
    unfold derive_scale_factor
    split_ifs <;> norm_num
  · intro n
    refine ⟨?_, ?_, ?_, ?_⟩
    · simpa using nat_cast_ne_tenths n 39 (by norm_num)
    · simpa using nat_cast_ne_tenths n 78 (by norm_num)
    · simpa using nat_cast_ne_tenths n 156 (by norm_num)
    · simpa using nat_cast_ne_tenths n 312 (by norm_num)

/-- Witness for C10: the conversion clause evaluated on the concrete
initialized device and bus. -/
theorem scale_factor_is_uint8_integer_witness :
    busOK.okSeq busOK.txn = true ∧
    (adxl345_read devInit busOK).2.1.x =
      wrap16 (rawX busOK * ((devInit.params.scale_factor % 256 : Nat) : Int)) :=
  ⟨rfl, scale_factor_is_uint8_integer.1 devInit busOK rfl⟩
